import Mathlib

/-!
Verification development for the ODA forecasting pipeline
(`oda_module.py`: loader, subregion aggregator, fit-and-forecast engine,
orchestrator).  The Python module is shallowly embedded: pandas cells
become an inductive `Cell` (`na` models NaN/missing), Python strings
become `List Char` (called `Name`), float values become `ℚ` with
`Option ℚ` standing for possibly-NaN prediction values, and code that
can raise becomes `Except String`.  The two statsmodels estimators
(ARIMA, ExponentialSmoothing) are external numerical libraries; they are
abstracted as fitter parameters of type `List ℚ → Option (Nat → ℚ)`:
`none` models a fit/forecast step that raises, `some f` a fitted model
whose `i`-th forecast step is `f i`.  Everything else is translated
line by line from the source.
-/

namespace ODA

/-- Python strings are modelled as lists of characters. -/
abbrev Name := List Char

/-- A pandas cell: missing (NaN), a numeric value, or a string.
Floats are modelled as rationals. -/
inductive Cell where
  | na : Cell
  | num : ℚ → Cell
  | str : Name → Cell
deriving DecidableEq

/-- A row of a parsed CSV: association list from column header to cell,
modelling a pandas DataFrame row (headers are unique in pandas). -/
abbrev Row := List (Name × Cell)

/-- A parsed CSV table as produced by `pd.read_csv`: column headers plus rows. -/
structure Table where
  cols : List Name
  rows : List Row
deriving DecidableEq

/-- Cell of a row under a column header (pandas column access). -/
def getCell (r : Row) (c : Name) : Cell :=
  match r.find? (fun p => p.1 == c) with
  | some p => p.2
  | none => Cell.na

/-- Python `str.strip()`: drop leading and trailing whitespace. -/
def trimChars (s : Name) : Name :=
  ((s.dropWhile Char.isWhitespace).reverse.dropWhile Char.isWhitespace).reverse

/-- `needle in hay` on Python strings (substring containment). -/
def containsSub (hay needle : Name) : Bool :=
  match hay with
  | [] => needle.isEmpty
  | _ :: t => needle.isPrefixOf hay || containsSub t needle

/-- Python `str.isdigit()`: nonempty and all characters are digits. -/
def isDigitName (s : Name) : Bool :=
  !s.isEmpty && s.all Char.isDigit

/-- Digit string to natural number (decimal). -/
def digitsToNat (s : Name) : Nat :=
  s.foldl (fun acc c => 10 * acc + (c.toNat - 48)) 0

/-- Insert into a list sorted by the boolean comparator `le`. -/
def insertLe (le : α → α → Bool) (a : α) : List α → List α
  | [] => [a]
  | b :: bs => if le a b then a :: b :: bs else b :: insertLe le a bs

/-- Insertion sort by the boolean comparator `le` (models a pandas sort). -/
def sortLe (le : α → α → Bool) : List α → List α
  | [] => []
  | a :: as => insertLe le a (sortLe le as)

/-- Lexicographic order on strings-as-char-lists (pandas column sort order). -/
def nameLe : Name → Name → Bool
  | [], _ => true
  | _ :: _, [] => false
  | a :: as, b :: bs => if a < b then true else if b < a then false else nameLe as bs

/-- `int(x)` / `.astype(int)` on a single cell: floats truncate toward zero,
integer-literal strings parse, anything else (including NaN) raises. -/
def toIntCell : Cell → Except String Int
  | Cell.na => Except.error "cannot convert NA to integer"
  | Cell.num q => Except.ok (Int.tdiv q.num q.den)
  | Cell.str s =>
      match (String.mk s).toInt? with
      | some i => Except.ok i
      | none => Except.error "invalid literal for int"

/-- `pd.to_numeric(x, errors=coerce)` on a single cell: numbers pass through,
numeric strings parse, everything else coerces to NaN (`none`).
String parsing is modelled for integer literals, which suffices for the
claims (the conservation law below holds uniformly in this function). -/
def toNumeric : Cell → Option ℚ
  | Cell.num q => some q
  | Cell.str s => ((String.mk s).toInt?).map (fun i => (i : ℚ))
  | Cell.na => none

/-- A record of the loader's long-format output: one (Country, Year, ODA) row.
`Year` is an `Int` because the source applies `.astype(int)` before returning. -/
structure RawRow where
  country : Cell
  year : Int
  oda : Cell
deriving DecidableEq

/-- `load_worldbank_style`, wide branch (lines 58-73): find the columns whose
header is all digits; if there are at least 10, melt into long form
(column-major, as `DataFrame.melt` stacks one value column after another),
drop rows whose ODA value is missing (`dropna(subset=[ODA])`), and convert
the year headers to integers (`astype(int)` cannot fail here because the
headers are all-digit strings).  Returns `none` when fewer than 10 year
columns are found, in which case the source falls through to the long branch. -/
def wideYearCols (t : Table) : List Name := t.cols.filter isDigitName

def loadWide (t : Table) : Option (List RawRow) :=
  if (wideYearCols t).length ≥ 10 then
    some ((wideYearCols t).flatMap (fun yc =>
      t.rows.filterMap (fun r =>
        match getCell r yc with
        | Cell.na => none
        | v => some ⟨getCell r ("Country Name".data), (digitsToNat yc : Int), v⟩)))
  else none

/-- The keyword set used to detect the value column in the long branch. -/
def valueKeywords : List Name := ["oda".data, "value".data, "amount".data, "official".data]

/-- `.astype(int)` over the Year column of the already-`dropna`-ed long rows
(line 87): the first non-convertible year raises. -/
def astypeYears : List (Cell × Cell × Cell) → Except String (List RawRow)
  | [] => Except.ok []
  | (c, y, v) :: rest =>
      match toIntCell y with
      | Except.error e => Except.error e
      | Except.ok yi =>
          match astypeYears rest with
          | Except.error e => Except.error e
          | Except.ok rs => Except.ok (⟨c, yi, v⟩ :: rs)

/-- Python `str.lower()` on a header (ASCII range). -/
def lowerName (c : Name) : Name := c.map Char.toLower

/-- `load_worldbank_style`, long branch (lines 78-90): detect a column whose
header contains "country", a column whose header equals "year"
(case-insensitively), and a column whose header contains one of the value
keywords; keep those three columns, drop rows with missing value
(`dropna(subset=[ODA])`), then convert years with `astype(int)`.
If detection fails the source raises `ValueError`. -/
def loadLong (t : Table) : Except String (List RawRow) :=
  match t.cols.find? (fun c => containsSub (lowerName c) ("country".data)),
        t.cols.find? (fun c => lowerName c == "year".data),
        t.cols.find? (fun c => valueKeywords.any (fun k => containsSub (lowerName c) k)) with
  | some cc, some yc, some vc =>
      astypeYears (t.rows.filterMap (fun r =>
        match getCell r vc with
        | Cell.na => none
        | v => some (getCell r cc, getCell r yc, v)))
  | _, _, _ => Except.error "Unable to parse CSV: check file format."

/-- `load_worldbank_style` (lines 52-90): try the wide shape first; fall back
to the long shape when it is not detected. -/
def load_worldbank_style (t : Table) : Except String (List RawRow) :=
  match loadWide t with
  | some out => Except.ok out
  | none => loadLong t

/-- The subregion map type: group name paired with its alias list, in
declaration order (a Python dict, so group names are unique). -/
abbrev GroupMap := List (Name × List Name)

/-- The normalization in `assign_subregion` (lines 103, 106):
`strip()`, then `lower()`, then `replace(. -> nothing)`, then
`replace(, -> nothing)`.  `Char.toLower` models Python `lower` on the
ASCII range. -/
def normalize (s : Name) : Name :=
  ((((trimChars s).map Char.toLower).filter (fun c => !(c == '.'))).filter (fun c => !(c == ',')))

/-- The matching test of lines 107-111 against one normalized alias `mm`:
exact equality, or `cn.startswith(mm)`, or `mm.startswith(cn)`. -/
def aliasMatch (cn mm : Name) : Bool :=
  cn == mm || mm.isPrefixOf cn || cn.isPrefixOf mm

/-- The two nested loops of `assign_subregion` (lines 104-112): first group,
in declaration order, one of whose normalized aliases matches; else `None`. -/
def assignLoop (cn : Name) : GroupMap → Option Name
  | [] => none
  | (g, members) :: rest =>
      if members.any (fun m => aliasMatch cn (normalize m)) then some g
      else assignLoop cn rest

/-- `assign_subregion` (lines 96-112).  `pd.isna(country_name)` maps NaN to
`None`; a numeric cell would raise `AttributeError` at `.strip()` in the
source and never occurs in the flows the claims quantify over — it is
modelled as unmatched. -/
def assign_subregion (c : Cell) (m : GroupMap) : Option Name :=
  match c with
  | Cell.str s => assignLoop (normalize s) m
  | _ => none

/-- The rows surviving `pd.to_numeric(errors=coerce)` + `dropna` in
`prepare_subregion_timeseries` (lines 121-122): (Country, Year, value). -/
def validRecords (rows : List RawRow) : List (Cell × Int × ℚ) :=
  rows.filterMap (fun r => (toNumeric r.oda).map (fun q => (r.country, r.year, q)))

/-- The rows surviving the subregion assignment + `dropna(subset=[Subregion])`
(lines 123-124): (Subregion, Year, value). -/
def matchedRecords (rows : List RawRow) (m : GroupMap) : List (Name × Int × ℚ) :=
  (validRecords rows).filterMap (fun v =>
    (assign_subregion v.1 m).map (fun g => (g, v.2.1, v.2.2)))

/-- The wide pivot produced by `prepare_subregion_timeseries`: sorted year
index, column list, and the summed cell value per (group, year).  The cell
function returns the groupby sum, which is `0` exactly where the source's
`fillna(0)` and appended zero columns put a `0`. -/
structure SubregionPivot where
  years : List Int
  cols : List Name
  cell : Name → Int → ℚ

/-- The groupby sum of line 125 at one (Subregion, Year) pair: the sum of the
values of the matched records landing in that cell (`0` when none do, which
is what `fillna(0)` and the appended zero columns of lines 126-130 produce). -/
def cellSum (rs : List (Name × Int × ℚ)) (g : Name) (y : Int) : ℚ :=
  ((rs.filter (fun r => r.1 == g && r.2.1 == y)).map (fun r => r.2.2)).sum

/-- The distinct subregions that received at least one record. -/
def presentGroups (rows : List RawRow) (m : GroupMap) : List Name :=
  ((matchedRecords rows m).map (fun r => r.1)).dedup

/-- The pivot's column list: matched subregions in pandas-pivot (sorted)
order, then the declared-but-absent groups appended by lines 128-130. -/
def pivotCols (rows : List RawRow) (m : GroupMap) : List Name :=
  sortLe nameLe (presentGroups rows m)
    ++ (m.map Prod.fst).filter (fun g => !((presentGroups rows m).contains g))

/-- The pivot's year index: the distinct years of the matched records, in
ascending order (`sort_index`, line 131). -/
def pivotYears (rows : List RawRow) (m : GroupMap) : List Int :=
  sortLe (fun a b => decide (a ≤ b)) (((matchedRecords rows m).map (fun r => r.2.1)).dedup)

/-- `prepare_subregion_timeseries` (lines 115-132): coerce and drop invalid
values, assign subregions and drop unmatched rows, group-sum by
(Subregion, Year), pivot (index = sorted years, columns = sorted matched
subregions), `fillna(0)`, then append an all-zero column for every declared
group that is missing (lines 128-130). -/
def prepare_subregion_timeseries (rows : List RawRow) (m : GroupMap) : SubregionPivot :=
  { years := pivotYears rows m
  , cols := pivotCols rows m
  , cell := fun g y => cellSum (matchedRecords rows m) g y }

/-- A fitter abstracts one statsmodels estimator (`ARIMA(order).fit()` or
`ExponentialSmoothing(trend=add).fit()`): given the training values it
either raises (`none`) or yields a model whose forecast at step `i`
(0-based) is `f i`; `.forecast(steps)` returns the first `steps` values. -/
abbrev Fitter := List ℚ → Option (Nat → ℚ)

/-- Possibly-NaN prediction value. -/
abbrev Val := Option ℚ

/-- The try/except blocks around each fit+forecast (lines 165-181, 203-217):
on success the forecast steps, on failure a same-length all-NaN sequence. -/
def predsOf (f : Fitter) (trainVals : List ℚ) (steps : Nat) : List Val :=
  match f trainVals with
  | some g => (List.range steps).map (fun i => some (g i))
  | none => List.replicate steps none

/-- The eval-window shrink guard of lines 158-159:
`if len(ser) < eval_years + 3: eval_years = max(1, min(eval_years, len(ser) // 3))`. -/
def effectiveEvalWindow (n eval_years : Nat) : Nat :=
  if n < eval_years + 3 then max 1 (min eval_years (n / 3)) else eval_years

/-- `train = ser.iloc[:-eval_years]` (line 161); Python `[:-0]` is empty. -/
def trainPart (ser : List (Int × ℚ)) (eff : Nat) : List (Int × ℚ) :=
  if eff = 0 then [] else ser.take (ser.length - eff)

/-- `test = ser.iloc[-eval_years:]` (line 162); Python `[-0:]` is the whole list. -/
def testPart (ser : List (Int × ℚ)) (eff : Nat) : List (Int × ℚ) :=
  if eff = 0 then ser else ser.drop (ser.length - eff)

/-- `ser.sort_index()` (line 143): stable sort by year. -/
def sortSeries (s : List (Int × ℚ)) : List (Int × ℚ) :=
  sortLe (fun a b => decide (a.1 ≤ b.1)) s

/-- The values of a series. -/
def vals (s : List (Int × ℚ)) : List ℚ := s.map Prod.snd

/-- `sklearn.metrics.mean_absolute_error`: raises on inconsistent lengths,
on empty input, and — crucially — on any NaN in the inputs
(`check_array(force_all_finite=True)` raises
`ValueError: Input contains NaN`); otherwise the mean absolute error. -/
def mean_absolute_error (ytrue : List ℚ) (ypred : List Val) : Except String ℚ :=
  if ytrue.length ≠ ypred.length then Except.error "Found input variables with inconsistent numbers of samples"
  else if ytrue.isEmpty then Except.error "Found array with 0 sample(s)"
  else if ypred.any Option.isNone then Except.error "Input contains NaN"
  else Except.ok ((((ytrue.zip ypred).map (fun tp => |tp.1 - tp.2.getD 0|)).sum) / (ytrue.length : ℚ))

/-- `sklearn.metrics.mean_squared_error`, same input validation.  The source
stores `sqrt(mean_squared_error(...))` as RMSE; the square root (an
order-preserving bijection on nonnegatives) is not representable in `ℚ`
and is not modelled: the squared value is kept, and it is defined iff the
source's RMSE is. -/
def mean_squared_error (ytrue : List ℚ) (ypred : List Val) : Except String ℚ :=
  if ytrue.length ≠ ypred.length then Except.error "Found input variables with inconsistent numbers of samples"
  else if ytrue.isEmpty then Except.error "Found array with 0 sample(s)"
  else if ypred.any Option.isNone then Except.error "Input contains NaN"
  else Except.ok ((((ytrue.zip ypred).map (fun tp => (tp.1 - tp.2.getD 0) ^ 2)).sum) / (ytrue.length : ℚ))

/-- The metrics dict of lines 183-195 (MAE and squared RMSE per model). -/
structure Metrics where
  arima_mae : ℚ
  arima_mse : ℚ
  holt_mae : ℚ
  holt_mse : ℚ
deriving DecidableEq

/-- Lines 185-188 in evaluation order: ARIMA MAE, ARIMA RMSE, Holt MAE,
Holt RMSE; the first sklearn `ValueError` propagates. -/
def metricsOf (testVals : List ℚ) (aPred hPred : List Val) : Except String Metrics :=
  match mean_absolute_error testVals aPred with
  | Except.error e => Except.error e
  | Except.ok maeA =>
      match mean_squared_error testVals aPred with
      | Except.error e => Except.error e
      | Except.ok mseA =>
          match mean_absolute_error testVals hPred with
          | Except.error e => Except.error e
          | Except.ok maeH =>
              match mean_squared_error testVals hPred with
              | Except.error e => Except.error e
              | Except.ok mseH => Except.ok ⟨maeA, mseA, maeH, mseH⟩

/-- The dict returned by `fit_and_forecast` (lines 237-244), with predictions
and forecasts re-indexed to integer years. -/
structure FitResult where
  train : List (Int × ℚ)
  test : List (Int × ℚ)
  pred_test_arima : List (Int × Val)
  pred_test_holt : List (Int × Val)
  metrics : Metrics
  forecast : List (Int × Val × Val)

/-- Python `range(a, b)` over integers, as the list `[a, a+1, ..., b-1]`. -/
def intRange (a b : Int) : List Int :=
  (List.range (b - a).toNat).map (fun n : Nat => a + (n : Int))

/-- `last_year = ser.index.year.max()` (line 198). -/
def lastObservedYear (ser : List (Int × ℚ)) : Int :=
  ((ser.map Prod.fst).max?).getD 0

/-- `forecast_years = list(range(last_year + 1, forecast_end_year + 1))` (line 199). -/
def forecastYears (ser : List (Int × ℚ)) (forecast_end_year : Int) : List Int :=
  intRange (lastObservedYear ser + 1) (forecast_end_year + 1)

/-- The sorted series inside `fit_and_forecast`. -/
def serOf (series : List (Int × ℚ)) : List (Int × ℚ) := sortSeries series

/-- The effective evaluation window actually used for `series`. -/
def effOf (series : List (Int × ℚ)) (eval_years : Nat) : Nat :=
  effectiveEvalWindow (serOf series).length eval_years

/-- The training partition used by `fit_and_forecast`. -/
def trainOf (series : List (Int × ℚ)) (eval_years : Nat) : List (Int × ℚ) :=
  trainPart (serOf series) (effOf series eval_years)

/-- The evaluation partition used by `fit_and_forecast`. -/
def testOf (series : List (Int × ℚ)) (eval_years : Nat) : List (Int × ℚ) :=
  testPart (serOf series) (effOf series eval_years)

/-- Evaluation-window predictions of one model (lines 165-172 resp. 174-181):
fit on train, forecast `len(test)` steps, NaN-filled on failure. -/
def evalPreds (f : Fitter) (series : List (Int × ℚ)) (eval_years : Nat) : List Val :=
  predsOf f (vals (trainOf series eval_years)) (testOf series eval_years).length

/-- Full-history forecast of one model (lines 203-209 resp. 211-217):
refit on the whole series, forecast one step per year through
`forecast_end_year`, NaN-filled on failure. -/
def fullPreds (f : Fitter) (series : List (Int × ℚ)) (forecast_end_year : Int) : List Val :=
  predsOf f (vals (serOf series)) (forecastYears (serOf series) forecast_end_year).length

/-- The result record built on the success path of `fit_and_forecast`
(lines 197-244). -/
def fitOkResult (fa fh : Fitter) (series : List (Int × ℚ)) (eval_years : Nat)
    (forecast_end_year : Int) (ms : Metrics) : FitResult :=
  { train := trainOf series eval_years
  , test := testOf series eval_years
  , pred_test_arima := (testOf series eval_years).map Prod.fst |>.zip (evalPreds fa series eval_years)
  , pred_test_holt := (testOf series eval_years).map Prod.fst |>.zip (evalPreds fh series eval_years)
  , metrics := ms
  , forecast := (forecastYears (serOf series) forecast_end_year).zip
      ((fullPreds fa series forecast_end_year).zip (fullPreds fh series forecast_end_year)) }

/-- `fit_and_forecast` (lines 138-244), with the two estimators abstracted as
fitters `fa` (ARIMA, whose order tuple is internal to the fitter) and `fh`
(Holt).  The metric computations of lines 185-188 run before the refit; a
`ValueError` raised there propagates out of the function. -/
def fit_and_forecast (fa fh : Fitter) (series : List (Int × ℚ)) (eval_years : Nat)
    (forecast_end_year : Int) : Except String FitResult :=
  match metricsOf (vals (testOf series eval_years)) (evalPreds fa series eval_years)
      (evalPreds fh series eval_years) with
  | Except.error e => Except.error e
  | Except.ok ms => Except.ok (fitOkResult fa fh series eval_years forecast_end_year ms)

/-- One group's series column of the pivot (`subregion_wide[sub]`, line 267). -/
def seriesOf (p : SubregionPivot) (g : Name) : List (Int × ℚ) :=
  p.years.map (fun y => (y, p.cell g y))

/-- The per-group loop of lines 266-268
(`for sub in subregion_wide.columns: models[sub] = fit_and_forecast(...)`):
one `fit_and_forecast` call per column, in column order, with no exception
handling — the first exception propagates and aborts the remaining groups. -/
def buildLoop (fa fh : Fitter) (piv : SubregionPivot) (eval_years : Nat)
    (forecast_end_year : Int) : List Name → Except String (List (Name × FitResult))
  | [] => Except.ok []
  | g :: gs =>
      match fit_and_forecast fa fh (seriesOf piv g) eval_years forecast_end_year with
      | Except.error e => Except.error e
      | Except.ok r =>
          match buildLoop fa fh piv eval_years forecast_end_year gs with
          | Except.error e => Except.error e
          | Except.ok rest => Except.ok ((g, r) :: rest)

/-- `build_all_subregion_models` (lines 250-269): load, aggregate, then run
the per-group modelling loop over the wide table's columns.  (The
column-renaming block of lines 254-262 is the identity here because the
loader output is already in canonical form.) -/
def build_all_subregion_models (fa fh : Fitter) (t : Table) (eval_years : Nat)
    (forecast_end_year : Int) (m : GroupMap) :
    Except String (SubregionPivot × List (Name × FitResult)) :=
  match load_worldbank_style t with
  | Except.error e => Except.error e
  | Except.ok long =>
      let piv := prepare_subregion_timeseries long m
      match buildLoop fa fh piv eval_years forecast_end_year piv.cols with
      | Except.error e => Except.error e
      | Except.ok models => Except.ok (piv, models)

/-- The grand total of the Aggregator's wide output: every column summed over
the whole year index (zero-filled cells and appended zero columns included). -/
def pivotTotal (p : SubregionPivot) : ℚ :=
  (p.cols.map (fun g => (p.years.map (fun y => p.cell g y)).sum)).sum

/-- Total of the valid (post-coercion, non-dropped) input values. -/
def validTotal (rows : List RawRow) : ℚ :=
  ((validRecords rows).map (fun v => v.2.2)).sum

/-- Total of the valid values whose country matches no group. -/
def unmatchedTotal (rows : List RawRow) (m : GroupMap) : ℚ :=
  (((validRecords rows).filter (fun v => (assign_subregion v.1 m).isNone)).map (fun v => v.2.2)).sum

/-! ### Concrete fixtures used by the closed theorems below -/

/-- A fitter whose fit/forecast always raises (a model that never converges). -/
def failFit : Fitter := fun _ => none

/-- A fitter that always converges and forecasts the constant 0. -/
def constFit : Fitter := fun _ => some (fun _ => 0)

/-- A fitter that converges exactly on all-zero training series — a stand-in
for a numerical model that fails on one group's data but not another's. -/
def zeroOnlyFit : Fitter :=
  fun tr => if tr.all (fun v => v == 0) then some (fun _ => 0) else none

/-- A 4-point annual series. -/
def c1Series : List (Int × ℚ) := [(2000, 10), (2001, 20), (2002, 30), (2003, 40)]

/-- A 2-point annual series (the spec's East-Africa shaped scenario). -/
def demoSeries : List (Int × ℚ) := [(2018, 150), (2019, 180)]

/-- Long-format table: one country `a1`, six years of nonzero values. -/
def c2Table : Table :=
  { cols := ["Country".data, "Year".data, "ODA".data]
  , rows :=
      [ [("Country".data, Cell.str ("a1".data)), ("Year".data, Cell.num 2000), ("ODA".data, Cell.num 7)]
      , [("Country".data, Cell.str ("a1".data)), ("Year".data, Cell.num 2001), ("ODA".data, Cell.num 8)]
      , [("Country".data, Cell.str ("a1".data)), ("Year".data, Cell.num 2002), ("ODA".data, Cell.num 9)]
      , [("Country".data, Cell.str ("a1".data)), ("Year".data, Cell.num 2003), ("ODA".data, Cell.num 10)]
      , [("Country".data, Cell.str ("a1".data)), ("Year".data, Cell.num 2004), ("ODA".data, Cell.num 11)]
      , [("Country".data, Cell.str ("a1".data)), ("Year".data, Cell.num 2005), ("ODA".data, Cell.num 12)] ] }

/-- Two declared groups: `Alpha` holds `a1`; `Beta`'s alias matches nothing,
so `Beta` becomes an all-zero appended column. -/
def c2Map : GroupMap := [("Alpha".data, ["a1".data]), ("Beta".data, ["nosuch".data])]

/-- The loader output for `c2Table`. -/
def c2Rows : List RawRow :=
  [ ⟨Cell.str ("a1".data), 2000, Cell.num 7⟩
  , ⟨Cell.str ("a1".data), 2001, Cell.num 8⟩
  , ⟨Cell.str ("a1".data), 2002, Cell.num 9⟩
  , ⟨Cell.str ("a1".data), 2003, Cell.num 10⟩
  , ⟨Cell.str ("a1".data), 2004, Cell.num 11⟩
  , ⟨Cell.str ("a1".data), 2005, Cell.num 12⟩ ]

/-- Group map with an alias-free first group, exercising the matching loop. -/
def c10Map : GroupMap := [("Alpha".data, []), ("Beta".data, ["x".data])]

/-- A wide-format table: 10 all-digit year columns, one country row whose
1990 value is numeric, 1991 value is a non-numeric string, and 1992 value is
missing. -/
def wideTable : Table :=
  { cols := ["Country Name".data, "1990".data, "1991".data, "1992".data, "1993".data,
             "1994".data, "1995".data, "1996".data, "1997".data, "1998".data, "1999".data]
  , rows := [ [("Country Name".data, Cell.str ("aa".data)),
               ("1990".data, Cell.num 1), ("1991".data, Cell.str ("xx".data)),
               ("1992".data, Cell.na), ("1993".data, Cell.num 4), ("1994".data, Cell.num 5),
               ("1995".data, Cell.num 6), ("1996".data, Cell.num 7), ("1997".data, Cell.num 8),
               ("1998".data, Cell.num 9), ("1999".data, Cell.num 10)] ] }

/-- Two declared groups; `Delta` will receive zero matched records. -/
def demoMap : GroupMap := [("Gamma".data, ["ken".data]), ("Delta".data, ["uga".data])]

/-- Loader-shaped records: two matched rows, one unmatched country, one row
whose value coerces to NaN and is dropped. -/
def demoRows : List RawRow :=
  [ ⟨Cell.str ("ken".data), 2018, Cell.num 100⟩
  , ⟨Cell.str ("ken".data), 2019, Cell.num 120⟩
  , ⟨Cell.str ("zzz".data), 2018, Cell.num 50⟩
  , ⟨Cell.str ("ken".data), 2020, Cell.na⟩ ]

/-! ### General lemmas about the embedding -/

theorem insertLe_perm (le : α → α → Bool) (a : α) (l : List α) :
    (insertLe le a l).Perm (a :: l) := by
  induction l with
  | nil => rfl
  | cons b bs ih =>
    unfold insertLe
    by_cases h : le a b = true
    · rw [if_pos h]
    · rw [if_neg h]
      exact (ih.cons b).trans (List.Perm.swap a b bs)

theorem sortLe_perm (le : α → α → Bool) (l : List α) : (sortLe le l).Perm l := by
  induction l with
  | nil => rfl
  | cons a as ih => exact (insertLe_perm le a (sortLe le as)).trans (ih.cons a)

theorem sortSeries_perm (s : List (Int × ℚ)) : (sortSeries s).Perm s := by
  unfold sortSeries
  exact sortLe_perm _ s

theorem mem_intRange {a b y : Int} : y ∈ intRange a b ↔ a ≤ y ∧ y < b := by
  unfold intRange
  simp only [List.mem_map, List.mem_range]
  constructor
  · rintro ⟨i, hi, hy⟩
    have hy2 : a + (i : Int) = y := hy
    omega
  · rintro ⟨h1, h2⟩
    refine ⟨(y - a).toNat, by omega, ?_⟩
    show a + ((y - a).toNat : Int) = y
    omega

theorem intRange_eq_nil {a b : Int} (h : b ≤ a) : intRange a b = [] := by
  unfold intRange
  rw [show (b - a).toNat = 0 by omega]
  rfl

theorem predsOf_length (f : Fitter) (tv : List ℚ) (steps : Nat) :
    (predsOf f tv steps).length = steps := by
  unfold predsOf
  cases f tv <;> simp

/-- Unpacking the success path of `fit_and_forecast`. -/
theorem fit_ok_eq {fa fh : Fitter} {s : List (Int × ℚ)} {k : Nat} {e : Int} {r : FitResult}
    (h : fit_and_forecast fa fh s k e = Except.ok r) :
    r = fitOkResult fa fh s k e r.metrics := by
  unfold fit_and_forecast at h
  cases hm : metricsOf (vals (testOf s k)) (evalPreds fa s k) (evalPreds fh s k) with
  | error e0 => rw [hm] at h; cases h
  | ok ms => rw [hm] at h; cases h; rfl

/-! ### C3 -/

/-- C3: whenever a series has fewer than `evalWindow + 3` observations, the
guard in `fit_and_forecast` silently replaces the evaluation window with
`max 1 (floor (length / 3))` (no exception is involved: the guard is a pure
reassignment). -/
theorem shrink_guard_silent (n k : Nat) (h : n < k + 3) :
    effectiveEvalWindow n k = max 1 (n / 3) := by
  unfold effectiveEvalWindow
  rw [if_pos h]
  omega

/-- Witness for C3: a series of length 3 with requested window 5 uses an
effective window of 1. -/
theorem shrink_guard_silent_witness : 3 < 5 + 3 ∧ effectiveEvalWindow 3 5 = 1 :=
  ⟨by decide, (shrink_guard_silent 3 5 (by decide)).trans (by decide)⟩

/-! ### C1 -/

/-- C1 (code evaluated at the failing input): when the ARIMA fitter fails on
the evaluation fit, `fit_and_forecast` does substitute a same-length NaN
prediction sequence, but the subsequent sklearn metric call rejects NaN and
raises, so the whole call aborts with `ValueError: Input contains NaN`
instead of returning the Holt results with undefined metrics. -/
theorem model_failure_aborts_fit_and_forecast :
    evalPreds failFit c1Series 1 = [none] ∧
    fit_and_forecast failFit constFit c1Series 1 2030 = Except.error "Input contains NaN" := by
  constructor
  · rfl
  · rfl

/-! ### C8 -/

/-- C8: for every series and every valid (positive) requested window, the
engine's evaluation set is the last `effectiveEvalWindow`-many elements of
the (sorted) series by position, the training set is the remaining prefix,
and the two partition sizes sum to the input series length. -/
theorem fit_split_partitions (fa fh : Fitter) (s : List (Int × ℚ)) (k : Nat) (e : Int)
    (r : FitResult) (hk : 0 < k) (hs : 0 < s.length)
    (h : fit_and_forecast fa fh s k e = Except.ok r) :
    r.train = (sortSeries s).take ((sortSeries s).length - effOf s k) ∧
    r.test = (sortSeries s).drop ((sortSeries s).length - effOf s k) ∧
    r.test.length = effOf s k ∧
    r.train.length + r.test.length = s.length := by
  have hr := fit_ok_eq h
  have hlen : (sortSeries s).length = s.length := (sortSeries_perm s).length_eq
  have hne : effOf s k ≠ 0 := by
    unfold effOf effectiveEvalWindow
    split
    · omega
    · omega
  have hle : effOf s k ≤ (sortSeries s).length := by
    unfold effOf serOf effectiveEvalWindow
    have hn3 : (sortSeries s).length / 3 ≤ (sortSeries s).length :=
      Nat.div_le_self (sortSeries s).length 3
    split
    · omega
    · omega
  refine ⟨?_, ?_, ?_, ?_⟩
  · rw [hr]
    show trainPart (serOf s) (effOf s k) = _
    unfold trainPart
    rw [if_neg hne]
    rfl
  · rw [hr]
    show testPart (serOf s) (effOf s k) = _
    unfold testPart
    rw [if_neg hne]
    rfl
  · rw [hr]
    show (testPart (serOf s) (effOf s k)).length = _
    unfold testPart
    rw [if_neg hne]
    show ((sortSeries s).drop ((sortSeries s).length - effOf s k)).length = _
    rw [List.length_drop]
    omega
  · rw [hr]
    show (trainPart (serOf s) (effOf s k)).length + (testPart (serOf s) (effOf s k)).length = _
    unfold trainPart testPart
    rw [if_neg hne, if_neg hne]
    show ((sortSeries s).take _).length + ((sortSeries s).drop _).length = _
    rw [List.length_take, List.length_drop]
    omega

/-- Witness for C8 at a concrete series and window. -/
theorem fit_split_partitions_witness :
    ∃ r, fit_and_forecast constFit constFit demoSeries 1 2020 = Except.ok r ∧
      r.train.length + r.test.length = demoSeries.length := by
  have hOk : (fit_and_forecast constFit constFit demoSeries 1 2020).isOk = true := by rfl
  cases hfit : fit_and_forecast constFit constFit demoSeries 1 2020 with
  | error e0 =>
    rw [hfit] at hOk
    exact absurd hOk Bool.false_ne_true
  | ok r =>
    exact ⟨r, rfl,
      (fit_split_partitions constFit constFit demoSeries 1 2020 r (by decide) (by decide) hfit).2.2.2⟩

/-! ### C4 -/

/-- C4: whenever `fit_and_forecast` returns, the forward forecast's year index
is exactly the contiguous integer range from `lastObservedYear + 1` through
`horizonEndYear` inclusive, and it is empty when
`horizonEndYear ≤ lastObservedYear`. -/
theorem forecast_year_index (fa fh : Fitter) (s : List (Int × ℚ)) (k : Nat) (e : Int)
    (r : FitResult) (h : fit_and_forecast fa fh s k e = Except.ok r) :
    r.forecast.map Prod.fst = intRange (lastObservedYear (sortSeries s) + 1) (e + 1) ∧
    (∀ y : Int, y ∈ r.forecast.map Prod.fst ↔ lastObservedYear (sortSeries s) + 1 ≤ y ∧ y ≤ e) ∧
    (e ≤ lastObservedYear (sortSeries s) → r.forecast = []) := by
  have hr := fit_ok_eq h
  have hmap : r.forecast.map Prod.fst = forecastYears (serOf s) e := by
    rw [hr]
    show ((forecastYears (serOf s) e).zip
        ((fullPreds fa s e).zip (fullPreds fh s e))).map Prod.fst = _
    apply List.map_fst_zip
    unfold fullPreds
    rw [List.length_zip, predsOf_length, predsOf_length]
    omega
  refine ⟨?_, ?_, ?_⟩
  · rw [hmap]; rfl
  · intro y
    rw [hmap]
    show y ∈ intRange (lastObservedYear (sortSeries s) + 1) (e + 1) ↔ _
    rw [mem_intRange]
    omega
  · intro he
    rw [hr]
    show (intRange (lastObservedYear (sortSeries s) + 1) (e + 1)).zip
      ((fullPreds fa s e).zip (fullPreds fh s e)) = []
    rw [intRange_eq_nil (by omega : e + 1 ≤ lastObservedYear (sortSeries s) + 1)]
    rfl

/-- Witness for C4: a series ending in 2019 with horizon 2020 forecasts
exactly the single year 2020. -/
theorem forecast_year_index_witness :
    ∃ r, fit_and_forecast constFit constFit demoSeries 1 2020 = Except.ok r ∧
      r.forecast.map Prod.fst = intRange (lastObservedYear (sortSeries demoSeries) + 1) 2021 ∧
      intRange (lastObservedYear (sortSeries demoSeries) + 1) 2021 = [2020] := by
  have hOk : (fit_and_forecast constFit constFit demoSeries 1 2020).isOk = true := by rfl
  cases hfit : fit_and_forecast constFit constFit demoSeries 1 2020 with
  | error e0 =>
    rw [hfit] at hOk
    exact absurd hOk Bool.false_ne_true
  | ok r =>
    exact ⟨r, rfl,
      (forecast_year_index constFit constFit demoSeries 1 2020 r hfit).1, by decide⟩

/-! ### C5 -/

theorem assignLoop_some_iff (cn : Name) (m : GroupMap) (g : Name) :
    assignLoop cn m = some g ↔
      ∃ pre mems post, m = pre ++ (g, mems) :: post ∧
        (∀ p ∈ pre, ∀ a ∈ p.2, aliasMatch cn (normalize a) = false) ∧
        (∃ a ∈ mems, aliasMatch cn (normalize a) = true) := by
  induction m with
  | nil =>
    constructor
    · intro h
      simp [assignLoop] at h
    · rintro ⟨pre, mems, post, habs, -, -⟩
      exact absurd habs (by cases pre <;> simp)
  | cons gp rest ih =>
    obtain ⟨g0, mems0⟩ := gp
    by_cases hany : mems0.any (fun mem => aliasMatch cn (normalize mem)) = true
    · constructor
      · intro h
        have hg : g0 = g := by
          unfold assignLoop at h
          rw [if_pos hany] at h
          exact Option.some.inj h
        subst hg
        refine ⟨[], mems0, rest, rfl, by simp, ?_⟩
        simpa using List.any_eq_true.mp hany
      · rintro ⟨pre, mems, post, hm, hpre, a, ha, hmatch⟩
        cases pre with
        | nil =>
          obtain ⟨hpair, -⟩ := List.cons.inj hm
          unfold assignLoop
          rw [if_pos hany]
          rw [show g0 = g from congrArg Prod.fst hpair]
        | cons p pre2 =>
          obtain ⟨hpair, -⟩ := List.cons.inj hm
          obtain ⟨a0, ha0, hm0⟩ := List.any_eq_true.mp hany
          have hfail := hpre p (List.mem_cons_self p pre2) a0 (by rw [← hpair]; exact ha0)
          rw [hfail] at hm0
          cases hm0
    · have hunf : assignLoop cn ((g0, mems0) :: rest) =
          if (mems0.any fun mem => aliasMatch cn (normalize mem)) = true then some g0
          else assignLoop cn rest := rfl
      have hstep : assignLoop cn ((g0, mems0) :: rest) = assignLoop cn rest := by
        rw [hunf, if_neg hany]
      have hf : mems0.any (fun mem => aliasMatch cn (normalize mem)) = false :=
        Bool.eq_false_iff.mpr hany
      rw [hstep, ih]
      constructor
      · rintro ⟨pre, mems, post, hm, hpre, hx⟩
        refine ⟨(g0, mems0) :: pre, mems, post, by rw [hm]; rfl, ?_, hx⟩
        intro p hp
        rcases List.mem_cons.mp hp with rfl | hp2
        · intro a ha
          exact Bool.eq_false_iff.mpr (List.any_eq_false.mp hf a ha)
        · exact hpre p hp2
      · rintro ⟨pre, mems, post, hm, hpre, a, ha, hmatch⟩
        cases pre with
        | nil =>
          obtain ⟨hpair, -⟩ := List.cons.inj hm
          have : a ∈ mems0 := by rw [show mems0 = mems from congrArg Prod.snd hpair]; exact ha
          have := List.any_eq_false.mp hf a this
          rw [hmatch] at this
          cases this rfl
        | cons p pre2 =>
          obtain ⟨-, htail⟩ := List.cons.inj hm
          exact ⟨pre2, mems, post, htail, fun q hq => hpre q (List.mem_cons_of_mem p hq),
            a, ha, hmatch⟩

theorem assignLoop_none_iff (cn : Name) (m : GroupMap) :
    assignLoop cn m = none ↔ ∀ p ∈ m, ∀ a ∈ p.2, aliasMatch cn (normalize a) = false := by
  induction m with
  | nil => simp [assignLoop]
  | cons gp rest ih =>
    obtain ⟨g0, mems0⟩ := gp
    by_cases hany : mems0.any (fun mem => aliasMatch cn (normalize mem)) = true
    · constructor
      · intro h
        unfold assignLoop at h
        rw [if_pos hany] at h
        cases h
      · intro h
        obtain ⟨a, ha, hmatch⟩ := List.any_eq_true.mp hany
        have := h (g0, mems0) (List.mem_cons_self _ _) a ha
        rw [this] at hmatch
        cases hmatch
    · have hunf : assignLoop cn ((g0, mems0) :: rest) =
          if (mems0.any fun mem => aliasMatch cn (normalize mem)) = true then some g0
          else assignLoop cn rest := rfl
      have hstep : assignLoop cn ((g0, mems0) :: rest) = assignLoop cn rest := by
        rw [hunf, if_neg hany]
      have hf : mems0.any (fun mem => aliasMatch cn (normalize mem)) = false :=
        Bool.eq_false_iff.mpr hany
      rw [hstep, ih]
      constructor
      · intro h p hp
        rcases List.mem_cons.mp hp with rfl | hp2
        · intro a ha
          exact Bool.eq_false_iff.mpr (List.any_eq_false.mp hf a ha)
        · exact h p hp2
      · intro h p hp
        exact h p (List.mem_cons_of_mem _ hp)

/-- C5: `assign_subregion` normalizes the name and every alias with
`normalize` (trim, lowercase, strip periods and commas), scans groups and
aliases in declaration order, returns the first group one of whose
normalized aliases equals the normalized name or is a prefix of it or has
it as a prefix (`aliasMatch`), and returns `none` when no alias in any
group matches. -/
theorem assign_subregion_first_match (s : Name) (m : GroupMap) :
    (∀ g, assign_subregion (Cell.str s) m = some g ↔
      ∃ pre mems post, m = pre ++ (g, mems) :: post ∧
        (∀ p ∈ pre, ∀ a ∈ p.2, aliasMatch (normalize s) (normalize a) = false) ∧
        (∃ a ∈ mems, aliasMatch (normalize s) (normalize a) = true)) ∧
    (assign_subregion (Cell.str s) m = none ↔
      ∀ p ∈ m, ∀ a ∈ p.2, aliasMatch (normalize s) (normalize a) = false) :=
  ⟨fun g => assignLoop_some_iff (normalize s) m g, assignLoop_none_iff (normalize s) m⟩

/-- Witness for C5 at a concrete name and single-group map. -/
theorem assign_subregion_first_match_witness :
    assign_subregion (Cell.str ("Kenya ".data)) [("East Africa".data, ["Kenya".data])]
      = some ("East Africa".data) := by
  refine ((assign_subregion_first_match ("Kenya ".data)
      [("East Africa".data, ["Kenya".data])]).1 ("East Africa".data)).mpr ?_
  exact ⟨[], ["Kenya".data], [], rfl, by simp, "Kenya".data, List.mem_cons_self _ _, by decide⟩

/-! ### C10 -/

/-- C10 counterexample: with the first declared group alias-free, an
empty/whitespace-only name is assigned to the *second* group `Beta`, not the
first declared group `Alpha`. -/
theorem empty_name_counterexample :
    assign_subregion (Cell.str (" ".data)) c10Map = some ("Beta".data) ∧
    c10Map.head?.map Prod.fst = some ("Alpha".data) ∧
    ("Beta".data : Name) ≠ ("Alpha".data : Name) := by
  refine ⟨by decide, by decide, by decide⟩

/-- C10 (amended): for an empty or whitespace-only country name, the
normalized name is `[]`, which `aliasMatch`-matches every alias, so
`assign_subregion` returns the first declared group *that has at least one
alias* (not necessarily the first declared group), and in particular does
not return unmatched when some group has an alias. -/
theorem assign_empty_matches_first_aliased_group (s : Name) (m : GroupMap)
    (hs : trimChars s = []) (hm : ∃ p ∈ m, p.2 ≠ []) :
    assign_subregion (Cell.str s) m = (m.find? (fun p => !p.2.isEmpty)).map Prod.fst ∧
    (assign_subregion (Cell.str s) m).isSome = true := by
  have hcn : normalize s = [] := by
    unfold normalize
    rw [hs]
    rfl
  have hmatch : ∀ mm : Name, aliasMatch [] mm = true := by
    intro mm
    unfold aliasMatch
    have h1 : ([] : Name).isPrefixOf mm = true := by cases mm <;> rfl
    rw [h1]
    simp
  have key : ∀ mm : GroupMap, assignLoop [] mm = (mm.find? (fun p => !p.2.isEmpty)).map Prod.fst := by
    intro mm
    induction mm with
    | nil => rfl
    | cons p rest ih =>
      obtain ⟨g0, mems0⟩ := p
      cases mems0 with
      | nil =>
        unfold assignLoop
        rw [if_neg (by simp)]
        rw [ih]
        rw [List.find?_cons_of_neg _ (by simp)]
      | cons a as =>
        unfold assignLoop
        rw [if_pos (by simp [hmatch])]
        rw [List.find?_cons_of_pos _ (by simp)]
        rfl
  have hfirst : assign_subregion (Cell.str s) m = (m.find? (fun p => !p.2.isEmpty)).map Prod.fst := by
    show assignLoop (normalize s) m = _
    rw [hcn]
    exact key m
  refine ⟨hfirst, ?_⟩
  rw [hfirst]
  obtain ⟨p, hp, hne⟩ := hm
  have hsome : (m.find? (fun p => !p.2.isEmpty)).isSome = true := by
    rw [List.find?_isSome]
    exact ⟨p, hp, by simpa using hne⟩
  cases hfind : m.find? (fun p => !p.2.isEmpty) with
  | none => rw [hfind] at hsome; cases hsome
  | some q => rfl

/-- Witness for C10's amended statement at a concrete map. -/
theorem assign_empty_matches_first_aliased_group_witness :
    (trimChars ("".data) = [] ∧ ∃ p ∈ c10Map, p.2 ≠ []) ∧
    assign_subregion (Cell.str ("".data)) c10Map
      = (c10Map.find? (fun p => !p.2.isEmpty)).map Prod.fst := by
  have hm : ∃ p ∈ c10Map, p.2 ≠ [] := ⟨("Beta".data, ["x".data]), by decide, by decide⟩
  exact ⟨⟨rfl, hm⟩, (assign_empty_matches_first_aliased_group ("".data) c10Map rfl hm).1⟩

/-! ### Summation lemmas for the aggregation claims -/

theorem sum_map_zero_list (l : List α) : (l.map (fun _ => (0 : ℚ))).sum = 0 := by
  induction l with
  | nil => rfl
  | cons x xs ih => simp [ih]

theorem sum_indicator_zero {α : Type} [DecidableEq α] (l : List α) (a : α) (c : ℚ)
    (ha : a ∉ l) : (l.map (fun x => if x = a then c else 0)).sum = 0 := by
  induction l with
  | nil => rfl
  | cons x xs ih =>
    have hx : x ≠ a := fun h => ha (h ▸ List.mem_cons_self x xs)
    simp [List.map_cons, List.sum_cons, hx, ih (fun h => ha (List.mem_cons_of_mem x h))]

theorem sum_indicator {α : Type} [DecidableEq α] (l : List α) (a : α) (c : ℚ)
    (hn : l.Nodup) (ha : a ∈ l) :
    (l.map (fun x => if x = a then c else 0)).sum = c := by
  induction l with
  | nil => cases ha
  | cons x xs ih =>
    rcases List.mem_cons.mp ha with h | h
    · subst h
      have hnx : a ∉ xs := (List.nodup_cons.mp hn).1
      simp [List.map_cons, List.sum_cons, sum_indicator_zero xs a c hnx]
    · have hx : x ≠ a := by
        intro he
        exact (List.nodup_cons.mp hn).1 (he ▸ h)
      simp [List.map_cons, List.sum_cons, hx, ih (List.nodup_cons.mp hn).2 h]

theorem sum_map_add (l : List α) (f g : α → ℚ) :
    (l.map (fun x => f x + g x)).sum = (l.map f).sum + (l.map g).sum := by
  induction l with
  | nil => simp
  | cons x xs ih =>
    simp only [List.map_cons, List.sum_cons, ih]
    ring

theorem double_sum_indicator (gs : List Name) (ys : List Int) (g0 : Name) (y0 : Int) (c : ℚ)
    (hg : gs.Nodup) (hy : ys.Nodup) (hg0 : g0 ∈ gs) (hy0 : y0 ∈ ys) :
    (gs.map (fun g => (ys.map (fun y => if g = g0 ∧ y = y0 then c else 0)).sum)).sum = c := by
  have hinner : ∀ g ∈ gs, (ys.map (fun y => if g = g0 ∧ y = y0 then c else 0)).sum
      = if g = g0 then c else 0 := by
    intro g _
    by_cases h : g = g0
    · subst h
      rw [if_pos rfl]
      have heq : ∀ y ∈ ys, (if g = g ∧ y = y0 then c else 0) = (if y = y0 then c else 0) := by
        intro y _
        simp
      rw [List.map_congr_left heq]
      exact sum_indicator ys y0 c hy hy0
    · rw [if_neg h]
      have heq : ∀ y ∈ ys, (if g = g0 ∧ y = y0 then c else 0) = (0 : ℚ) := by
        intro y _
        rw [if_neg (fun hc => h hc.1)]
      rw [List.map_congr_left heq]
      exact sum_map_zero_list ys
  rw [List.map_congr_left hinner]
  exact sum_indicator gs g0 c hg hg0

theorem cellSum_cons (r : Name × Int × ℚ) (rs : List (Name × Int × ℚ)) (g : Name) (y : Int) :
    cellSum (r :: rs) g y = (if g = r.1 ∧ y = r.2.1 then r.2.2 else 0) + cellSum rs g y := by
  by_cases h : g = r.1 ∧ y = r.2.1
  · rw [if_pos h]
    unfold cellSum
    rw [List.filter_cons_of_pos (by simp [h.1, h.2])]
    simp
  · rw [if_neg h, zero_add]
    unfold cellSum
    rw [List.filter_cons_of_neg]
    simp only [Bool.and_eq_true, beq_iff_eq]
    rintro ⟨h1, h2⟩
    exact h ⟨h1.symm, h2.symm⟩

/-- Nodup columns and years that cover every record make the double sum over
pivot cells equal the plain sum of record values. -/
theorem pivot_sum_eq (gs : List Name) (ys : List Int) (rs : List (Name × Int × ℚ))
    (hg : gs.Nodup) (hy : ys.Nodup)
    (hcov : ∀ r ∈ rs, r.1 ∈ gs ∧ r.2.1 ∈ ys) :
    (gs.map (fun g => (ys.map (fun y => cellSum rs g y)).sum)).sum
      = (rs.map (fun r => r.2.2)).sum := by
  induction rs with
  | nil =>
    have h1 : ∀ g ∈ gs, (ys.map (fun y => cellSum ([] : List (Name × Int × ℚ)) g y)).sum = 0 := by
      intro g _
      have h2 : ∀ y ∈ ys, cellSum ([] : List (Name × Int × ℚ)) g y = 0 := fun y _ => rfl
      rw [List.map_congr_left h2]
      exact sum_map_zero_list ys
    rw [List.map_congr_left h1, sum_map_zero_list]
    simp
  | cons r rs ih =>
    have hcov2 : ∀ x ∈ rs, x.1 ∈ gs ∧ x.2.1 ∈ ys :=
      fun x hx => hcov x (List.mem_cons_of_mem r hx)
    obtain ⟨hg0, hy0⟩ := hcov r (List.mem_cons_self r rs)
    have step1 : ∀ g ∈ gs, (ys.map (fun y => cellSum (r :: rs) g y)).sum
        = (ys.map (fun y => if g = r.1 ∧ y = r.2.1 then r.2.2 else 0)).sum
          + (ys.map (fun y => cellSum rs g y)).sum := by
      intro g _
      rw [List.map_congr_left (fun y _ => cellSum_cons r rs g y)]
      exact sum_map_add ys _ _
    rw [List.map_congr_left step1]
    rw [sum_map_add gs (fun g => (ys.map (fun y => if g = r.1 ∧ y = r.2.1 then r.2.2 else 0)).sum)
      (fun g => (ys.map (fun y => cellSum rs g y)).sum)]
    rw [double_sum_indicator gs ys r.1 r.2.1 r.2.2 hg hy hg0 hy0]
    rw [ih hcov2]
    simp

theorem pivotCols_nodup (rows : List RawRow) (m : GroupMap)
    (hm : (m.map Prod.fst).Nodup) : (pivotCols rows m).Nodup := by
  unfold pivotCols
  apply List.Nodup.append
  · exact (sortLe_perm nameLe (presentGroups rows m)).nodup_iff.mpr (List.nodup_dedup _)
  · exact hm.filter _
  · intro x hx1 hx2
    have hxp : x ∈ presentGroups rows m := (sortLe_perm nameLe _).mem_iff.mp hx1
    have hmem := List.of_mem_filter hx2
    have hcontains : (presentGroups rows m).contains x = true := by
      simpa using hxp
    rw [hcontains] at hmem
    simp at hmem

theorem pivotYears_nodup (rows : List RawRow) (m : GroupMap) : (pivotYears rows m).Nodup :=
  (sortLe_perm _ _).nodup_iff.mpr (List.nodup_dedup _)

theorem mem_pivotCols_of_matched (rows : List RawRow) (m : GroupMap)
    {r : Name × Int × ℚ} (hr : r ∈ matchedRecords rows m) : r.1 ∈ pivotCols rows m := by
  unfold pivotCols
  exact List.mem_append_left _
    ((sortLe_perm nameLe _).mem_iff.mpr (List.mem_dedup.mpr (List.mem_map_of_mem _ hr)))

theorem mem_pivotYears_iff (rows : List RawRow) (m : GroupMap) (y : Int) :
    y ∈ pivotYears rows m ↔ ∃ r ∈ matchedRecords rows m, r.2.1 = y := by
  unfold pivotYears
  rw [(sortLe_perm _ _).mem_iff, List.mem_dedup, List.mem_map]

/-- Splitting the valid records by match status conserves the value sum. -/
theorem matched_plus_unmatched (l : List (Cell × Int × ℚ)) (m : GroupMap) :
    ((l.filterMap (fun v => (assign_subregion v.1 m).map (fun g => (g, v.2.1, v.2.2)))).map
        (fun r => r.2.2)).sum
      + ((l.filter (fun v => (assign_subregion v.1 m).isNone)).map (fun v => v.2.2)).sum
      = (l.map (fun v => v.2.2)).sum := by
  induction l with
  | nil => simp
  | cons v l ih =>
    cases h : assign_subregion v.1 m with
    | none =>
      have h1 : (v :: l).filterMap
            (fun v => (assign_subregion v.1 m).map (fun g => (g, v.2.1, v.2.2)))
          = l.filterMap (fun v => (assign_subregion v.1 m).map (fun g => (g, v.2.1, v.2.2))) := by
        rw [List.filterMap_cons, h]
        rfl
      have h2 : (v :: l).filter (fun v => (assign_subregion v.1 m).isNone)
          = v :: l.filter (fun v => (assign_subregion v.1 m).isNone) := by
        rw [List.filter_cons, h]
        rfl
      rw [h1, h2]
      simp only [List.map_cons, List.sum_cons]
      rw [← ih]
      ring
    | some g =>
      have h1 : (v :: l).filterMap
            (fun v => (assign_subregion v.1 m).map (fun g => (g, v.2.1, v.2.2)))
          = (g, v.2.1, v.2.2)
            :: l.filterMap (fun v => (assign_subregion v.1 m).map (fun g => (g, v.2.1, v.2.2))) := by
        rw [List.filterMap_cons, h]
        rfl
      have h2 : (v :: l).filter (fun v => (assign_subregion v.1 m).isNone)
          = l.filter (fun v => (assign_subregion v.1 m).isNone) := by
        rw [List.filter_cons, h]
        rfl
      rw [h1, h2]
      simp only [List.map_cons, List.sum_cons]
      rw [← ih]
      ring

/-! ### C6 -/

/-- C6 (conservation law): the sum of the aggregated values over every group
column and year of the Aggregator's output, plus the sum of the valid values
belonging to unmatched countries, equals the total of all valid (non-dropped)
input values. -/
theorem aggregation_conservation (rows : List RawRow) (m : GroupMap)
    (hm : (m.map Prod.fst).Nodup) :
    pivotTotal (prepare_subregion_timeseries rows m) + unmatchedTotal rows m
      = validTotal rows := by
  have hcov : ∀ r ∈ matchedRecords rows m, r.1 ∈ pivotCols rows m ∧ r.2.1 ∈ pivotYears rows m := by
    intro r hr
    exact ⟨mem_pivotCols_of_matched rows m hr, (mem_pivotYears_iff rows m r.2.1).mpr ⟨r, hr, rfl⟩⟩
  have hA : pivotTotal (prepare_subregion_timeseries rows m)
      = ((matchedRecords rows m).map (fun r => r.2.2)).sum := by
    show ((pivotCols rows m).map (fun g => ((pivotYears rows m).map
        (fun y => cellSum (matchedRecords rows m) g y)).sum)).sum = _
    exact pivot_sum_eq _ _ _ (pivotCols_nodup rows m hm) (pivotYears_nodup rows m) hcov
  rw [hA]
  exact matched_plus_unmatched (validRecords rows) m

/-- Witness for C6 at a concrete record set (with an unmatched country and a
dropped NaN value) and group map. -/
theorem aggregation_conservation_witness :
    (demoMap.map Prod.fst).Nodup ∧
    pivotTotal (prepare_subregion_timeseries demoRows demoMap) + unmatchedTotal demoRows demoMap
      = validTotal demoRows :=
  ⟨by decide, aggregation_conservation demoRows demoMap (by decide)⟩

/-! ### C7 -/

/-- C7: every declared group appears as a column of the Aggregator's output;
the output's year index is exactly the set of years seen across matched
records (the union over all groups); and a declared group with zero matched
records has an all-zero series (its cell is 0 at every year). -/
theorem pivot_declared_columns_and_zero_groups (rows : List RawRow) (m : GroupMap) :
    (∀ g ∈ m.map Prod.fst, g ∈ (prepare_subregion_timeseries rows m).cols) ∧
    (∀ y : Int, y ∈ (prepare_subregion_timeseries rows m).years ↔
      ∃ r ∈ matchedRecords rows m, r.2.1 = y) ∧
    (∀ g, (∀ r ∈ matchedRecords rows m, r.1 ≠ g) →
      ∀ y : Int, (prepare_subregion_timeseries rows m).cell g y = 0) := by
  refine ⟨?_, ?_, ?_⟩
  · intro g hg
    show g ∈ pivotCols rows m
    unfold pivotCols
    by_cases hp : g ∈ presentGroups rows m
    · exact List.mem_append_left _ ((sortLe_perm nameLe _).mem_iff.mpr hp)
    · apply List.mem_append_right
      apply List.mem_filter.mpr
      refine ⟨hg, ?_⟩
      simpa using hp
  · intro y
    exact mem_pivotYears_iff rows m y
  · intro g hg y
    show cellSum (matchedRecords rows m) g y = 0
    unfold cellSum
    have hnil : (matchedRecords rows m).filter (fun r => r.1 == g && r.2.1 == y) = [] := by
      rw [List.filter_eq_nil_iff]
      intro r hr hcond
      rw [Bool.and_eq_true] at hcond
      exact hg r hr (beq_iff_eq.mp hcond.1)
    rw [hnil]
    rfl

/-- Witness for C7: group `Delta` is declared, gets zero matched records, yet
appears as a column with a zero cell. -/
theorem pivot_declared_columns_witness :
    ("Delta".data ∈ demoMap.map Prod.fst) ∧
    ("Delta".data ∈ (prepare_subregion_timeseries demoRows demoMap).cols) ∧
    (∀ r ∈ matchedRecords demoRows demoMap, r.1 ≠ ("Delta".data : Name)) ∧
    (prepare_subregion_timeseries demoRows demoMap).cell ("Delta".data) 2018 = 0 := by
  have h := pivot_declared_columns_and_zero_groups demoRows demoMap
  have hne : ∀ r ∈ matchedRecords demoRows demoMap, r.1 ≠ ("Delta".data : Name) := by decide
  exact ⟨by decide, h.1 ("Delta".data) (by decide), hne, h.2.2 ("Delta".data) hne 2018⟩

/-! ### C2 -/

/-- C2 (code evaluated at the failing input): the input has two groups in the
wide table (`Alpha` with data, `Beta` as an appended zero column), and the
ARIMA stand-in fails on `Alpha`'s series but converges on `Beta`'s.
`build_all_subregion_models` aborts the whole batch with the exception
raised inside the first group's `fit_and_forecast` call, even though the
engine call for the other group succeeds — no per-group isolation, no
group-level failure marker, and the other group's result is never
delivered. -/
theorem group_failure_aborts_batch :
    (build_all_subregion_models zeroOnlyFit constFit c2Table 1 2030 c2Map).isOk = false ∧
    load_worldbank_style c2Table = Except.ok c2Rows ∧
    (prepare_subregion_timeseries c2Rows c2Map).cols = [("Alpha".data : Name), "Beta".data] ∧
    (fit_and_forecast zeroOnlyFit constFit
      (seriesOf (prepare_subregion_timeseries c2Rows c2Map) ("Beta".data)) 1 2030).isOk = true := by
  have hvA : vals (trainOf (seriesOf (prepare_subregion_timeseries c2Rows c2Map) ("Alpha".data)) 1)
      = [(7 : ℚ) + 0, 8 + 0, 9 + 0, 10 + 0, 11 + 0] := rfl
  have h70 : (((7 : ℚ) + 0) == 0) = false := by norm_num
  have hallA : ((vals (trainOf
        (seriesOf (prepare_subregion_timeseries c2Rows c2Map) ("Alpha".data)) 1)).all
      (fun v => v == 0)) = false := by
    rw [hvA]
    simp only [List.all_cons, h70, Bool.false_and]
  have hfaA : zeroOnlyFit (vals (trainOf
      (seriesOf (prepare_subregion_timeseries c2Rows c2Map) ("Alpha".data)) 1)) = none := by
    unfold zeroOnlyFit
    rw [hallA]
    rfl
  have hpredA : evalPreds zeroOnlyFit
        (seriesOf (prepare_subregion_timeseries c2Rows c2Map) ("Alpha".data)) 1
      = List.replicate (testOf
          (seriesOf (prepare_subregion_timeseries c2Rows c2Map) ("Alpha".data)) 1).length none := by
    unfold evalPreds predsOf
    rw [hfaA]
  have hfitA : fit_and_forecast zeroOnlyFit constFit
      (seriesOf (prepare_subregion_timeseries c2Rows c2Map) ("Alpha".data)) 1 2030
      = Except.error "Input contains NaN" := by
    unfold fit_and_forecast
    rw [hpredA]
    rfl
  have hload : load_worldbank_style c2Table = Except.ok c2Rows := by rfl
  have hcols : (prepare_subregion_timeseries c2Rows c2Map).cols
      = [("Alpha".data : Name), "Beta".data] := by rfl
  have hloop : buildLoop zeroOnlyFit constFit (prepare_subregion_timeseries c2Rows c2Map) 1 2030
      (prepare_subregion_timeseries c2Rows c2Map).cols = Except.error "Input contains NaN" := by
    rw [hcols]
    have hunf : buildLoop zeroOnlyFit constFit (prepare_subregion_timeseries c2Rows c2Map) 1 2030
        (("Alpha".data : Name) :: ["Beta".data])
        = match fit_and_forecast zeroOnlyFit constFit
            (seriesOf (prepare_subregion_timeseries c2Rows c2Map) ("Alpha".data)) 1 2030 with
          | Except.error e => Except.error e
          | Except.ok r =>
              match buildLoop zeroOnlyFit constFit (prepare_subregion_timeseries c2Rows c2Map)
                  1 2030 ["Beta".data] with
              | Except.error e => Except.error e
              | Except.ok rest => Except.ok ((("Alpha".data : Name), r) :: rest) := rfl
    rw [hunf, hfitA]
  have hbuild : (build_all_subregion_models zeroOnlyFit constFit c2Table 1 2030 c2Map).isOk
      = false := by
    have hb : build_all_subregion_models zeroOnlyFit constFit c2Table 1 2030 c2Map
        = Except.error "Input contains NaN" := by
      unfold build_all_subregion_models
      rw [hload]
      show (match buildLoop zeroOnlyFit constFit (prepare_subregion_timeseries c2Rows c2Map) 1 2030
          (prepare_subregion_timeseries c2Rows c2Map).cols with
        | Except.error e => (Except.error e : Except String (SubregionPivot × List (Name × FitResult)))
        | Except.ok models => Except.ok (prepare_subregion_timeseries c2Rows c2Map, models)) = _
      rw [hloop]
    rw [hb]
    rfl
  exact ⟨hbuild, hload, hcols, by rfl⟩

/-! ### C9 -/

/-- C9 counterexample: in a well-formed wide table, a row whose value cell is
the non-numeric string `xx` is *kept* by the Loader (only missing values are
dropped there; non-numeric strings are coerced away later, in the
Aggregator), refuting "rows with a missing or non-numeric value are dropped"
as a property of the Loader.  The missing-value (NaN) cell of year 1992 is
dropped, so the second conjunct also shows no missing value survives. -/
theorem loader_keeps_non_numeric_value :
    ((load_worldbank_style wideTable).toOption.getD []).contains
      ⟨Cell.str ("aa".data), 1991, Cell.str ("xx".data)⟩ = true ∧
    ((load_worldbank_style wideTable).toOption.getD []).all
      (fun r => !(r.oda == Cell.na)) = true := by
  exact ⟨by decide, by decide⟩

theorem astypeYears_ok_mem {l : List (Cell × Cell × Cell)} {rs : List RawRow}
    (h : astypeYears l = Except.ok rs) : ∀ r ∈ rs, ∃ x ∈ l, r.oda = x.2.2 := by
  induction l generalizing rs with
  | nil =>
    cases h
    intro r hr
    cases hr
  | cons x rest ih =>
    obtain ⟨c, y, v⟩ := x
    have hunf : astypeYears ((c, y, v) :: rest)
        = match toIntCell y with
          | Except.error e => Except.error e
          | Except.ok yi =>
              match astypeYears rest with
              | Except.error e => Except.error e
              | Except.ok rs2 => Except.ok (⟨c, yi, v⟩ :: rs2) := rfl
    rw [hunf] at h
    cases hy : toIntCell y with
    | error e => rw [hy] at h; cases h
    | ok yi =>
      rw [hy] at h
      cases hrest : astypeYears rest with
      | error e => rw [hrest] at h; cases h
      | ok rs2 =>
        rw [hrest] at h
        cases h
        intro r hr
        rcases List.mem_cons.mp hr with hhead | htail
        · exact ⟨(c, y, v), List.mem_cons_self _ _, by rw [hhead]⟩
        · obtain ⟨x2, hx2, hx3⟩ := ih hrest r htail
          exact ⟨x2, List.mem_cons_of_mem _ hx2, hx3⟩

theorem wideRow_oda_ne_na {rows : List Row} {yc : Name} {r : RawRow}
    (hr : r ∈ rows.filterMap (fun row =>
      match getCell row yc with
      | Cell.na => none
      | v => some ⟨getCell row ("Country Name".data), (digitsToNat yc : Int), v⟩)) :
    r.oda ≠ Cell.na := by
  rw [List.mem_filterMap] at hr
  obtain ⟨row, hrow, hmap⟩ := hr
  cases hcell : getCell row yc with
  | na => rw [hcell] at hmap; cases hmap
  | num q =>
    rw [hcell] at hmap
    cases hmap
    intro hna
    cases hna
  | str s2 =>
    rw [hcell] at hmap
    cases hmap
    intro hna
    cases hna

theorem longRow_oda_ne_na {rows : List Row} {cc yc vc : Name} {x : Cell × Cell × Cell}
    (hx : x ∈ rows.filterMap (fun r =>
      match getCell r vc with
      | Cell.na => none
      | v => some (getCell r cc, getCell r yc, v))) : x.2.2 ≠ Cell.na := by
  rw [List.mem_filterMap] at hx
  obtain ⟨row, hrow, hmap⟩ := hx
  cases hcell : getCell row vc with
  | na => rw [hcell] at hmap; cases hmap
  | num q =>
    rw [hcell] at hmap
    cases hmap
    intro hna
    cases hna
  | str s2 =>
    rw [hcell] at hmap
    cases hmap
    intro hna
    cases hna

/-- C9 (amended): whenever the Loader returns (wide or long branch), no
output row has a missing (NaN) value — rows with missing values are dropped
by `dropna`, not defaulted to zero — and every output Year is an integer
(the `astype(int)` conversion succeeded by construction of `RawRow`).
Rows with non-numeric string values, however, are retained by the Loader
and only dropped later by the Aggregator's `to_numeric` coercion. -/
theorem loader_output_never_missing (t : Table) (out : List RawRow)
    (h : load_worldbank_style t = Except.ok out) :
    ∀ r ∈ out, r.oda ≠ Cell.na := by
  unfold load_worldbank_style at h
  cases hw : loadWide t with
  | some o =>
    rw [hw] at h
    cases h
    unfold loadWide at hw
    split at hw
    · cases hw
      intro r hr
      rw [List.mem_flatMap] at hr
      obtain ⟨yc, hyc2, hr2⟩ := hr
      exact wideRow_oda_ne_na hr2
    · cases hw
  | none =>
    rw [hw] at h
    have h2 : loadLong t = Except.ok out := h
    unfold loadLong at h2
    split at h2
    · intro r hr
      obtain ⟨x, hx, hoda⟩ := astypeYears_ok_mem h2 r hr
      rw [hoda]
      exact longRow_oda_ne_na hx
    · cases h2

/-- Witness for C9's amended statement: the Loader's output on the concrete
wide table has no missing values. -/
theorem loader_output_never_missing_witness :
    ∃ out, load_worldbank_style wideTable = Except.ok out ∧ ∀ r ∈ out, r.oda ≠ Cell.na := by
  have hOk : (load_worldbank_style wideTable).isOk = true := by rfl
  cases hl : load_worldbank_style wideTable with
  | error e =>
    rw [hl] at hOk
    exact absurd hOk Bool.false_ne_true
  | ok out => exact ⟨out, rfl, loader_output_never_missing wideTable out hl⟩

end ODA
